import Mathlib

/-!
# Verification of the fhir-kindling generation engine specification

A shallow embedding of the record-generation engine of fhir-kindling:
value producers (`FieldGenerator`), static overrides (`FieldValue`),
validated parameter bundles (`GeneratorParameters`), the batch
`ResourceGenerator`, the `PatientGenerator` specialisation, the
`TimeSeriesGenerator` wrapper and the `DatasetGenerator` orchestrator.
The repository snapshot ships only the test-suite for the engine
(`tests/test_generators.py`, `fhir_kindling/tests/test_generators.py`);
the engine modules themselves (`fhir_kindling/generators/*`) are not part
of the snapshot, so every engine operation below is modelled from the
specification, faithful to its words, and checked against the behaviours
the tests pin down.

Values are modelled as strings, probabilities as rationals (the spec's
tolerance comparison `sum(probabilities) ≈ 1.0` becomes an exact
`|sum - 1| ≤ ε` over `ℚ`), randomness as explicitly passed draws in
`[0,1)`, and Python exceptions as `Except GenError`.
-/

namespace FhirKindling

/-- Error taxonomy of the engine (spec §7): configuration errors are
raised at construction time, generation errors at `generate()` time,
lookup errors for an unknown record kind. -/
inductive GenError where
  | configError : String → GenError
  | generationError : String → GenError
  | lookupError : String → GenError
deriving DecidableEq, Repr

/-- A field value of a record: either a scalar or a pre-built sequence of
values, one per record (spec §3, `FieldValue.value : V | sequence<V>`). -/
inductive FieldVal where
  | scalar : String → FieldVal
  | seq : List String → FieldVal
deriving DecidableEq, Repr

/-- Modelled from the spec: `FieldValue` (§3), a static value or sequence
of values bound to a field name. -/
structure FieldValue where
  field : String
  value : FieldVal
deriving DecidableEq, Repr

/-- The mode of a value producer (spec §3): `ChoiceMode` holds an ordered
list of choices with optional probabilities, `FunctionMode` a
caller-supplied producer; the producer's internal cursor state is
modelled by indexing the producer with the invocation number. -/
inductive FGMode where
  | choice : List String → Option (List ℚ) → FGMode
  | fn : (Nat → String) → FGMode

/-- Modelled from the spec: `FieldGenerator` (Value Producer, §3/§4.1):
a field name together with exactly one mode. -/
structure FieldGenerator where
  field : String
  mode : FGMode

/-- Raw constructor arguments of a `FieldGenerator`, as the Python
keyword arguments `choices`, `choice_probabilities`,
`generator_function` (each optional). -/
structure FGArgs where
  field : String
  choices : Option (List String)
  choiceProbabilities : Option (List ℚ)
  generatorFunction : Option (Nat → String)

/-- Modelled from the spec: construction of a Value Producer (§4.1).
`ε` is the probability-sum tolerance. Fails with a configuration error
if both modes' fields are set, if `probabilities` length mismatches
`choices` length, if `probabilities` does not sum to 1 within tolerance,
or if neither mode is set. -/
def mkFieldGenerator (ε : ℚ) (a : FGArgs) : Except GenError FieldGenerator :=
  match a.choices, a.generatorFunction with
  | some _, some _ => .error (.configError "both choices and generator_function set")
  | some cs, none =>
      match a.choiceProbabilities with
      | none => .ok ⟨a.field, .choice cs none⟩
      | some ps =>
          if ps.length ≠ cs.length then
            .error (.configError "probabilities length mismatches choices length")
          else if ¬ |ps.sum - 1| ≤ ε then
            .error (.configError "probabilities do not sum to 1")
          else .ok ⟨a.field, .choice cs (some ps)⟩
  | none, some f => .ok ⟨a.field, .fn f⟩
  | none, none => .error (.configError "neither choices nor generator_function set")

/-- Weighted selection: walk the probability list, picking the first
choice whose cumulative probability exceeds the draw. -/
def pickWeighted (r : ℚ) : List String → List ℚ → Option String
  | [], _ => none
  | c :: _, [] => some c
  | c :: cs, p :: ps => if r < p then some c else pickWeighted (r - p) cs ps

/-- Modelled from the spec: `FieldGenerator.generate()` (§4.1). In
ChoiceMode the draw `r ∈ [0,1)` is scaled by the total weight and the
weighted walk selects an element (uniform mode indexes by the invocation
number `k`); in FunctionMode the producer is invoked at its current
cursor `k` and its result returned unchanged. -/
def FieldGenerator.generate (g : FieldGenerator) (r : ℚ) (k : Nat) : Option String :=
  match g.mode with
  | .choice cs (some ps) => pickWeighted (r * ps.sum) cs ps
  | .choice cs none => cs.get? (k % cs.length)
  | .fn f => some (f k)

/-- Modelled from the spec: `GenerationParameters` (§3): a target record
count, a list of field overrides and a list of value producers. The smart
constructor `mkGeneratorParameters` enforces the one-field-one-source
invariant. -/
structure GeneratorParameters where
  count : Nat
  fieldValues : List FieldValue
  fieldGenerators : List FieldGenerator

/-- The field names targeted by the overrides and the producers, in
order. -/
def targetedFields (fvs : List FieldValue) (fgs : List FieldGenerator) : List String :=
  fvs.map FieldValue.field ++ fgs.map FieldGenerator.field

/-- Modelled from the spec: construction of `GenerationParameters`
(§3/§4.2). Fails with a configuration error when any field is targeted
twice — by two overrides, by two producers, or by an override and a
producer — raised at construction, not generation. -/
def mkGeneratorParameters (count : Nat) (fvs : List FieldValue)
    (fgs : List FieldGenerator) : Except GenError GeneratorParameters :=
  if (targetedFields fvs fgs).Nodup then .ok ⟨count, fvs, fgs⟩
  else .error (.configError "duplicate field targeting")

/-- The external schema collaborator (spec §6): the set of known record
kinds, the mandatory field set per kind, a type-appropriate default per
required field, and the validator. -/
structure Schema where
  kinds : List String
  requiredFields : String → List String
  defaultFor : String → String → String
  validate : String → List (String × String) → Bool

/-- A generated record, modelled as its assembled field map (the spec's
`Record` is the opaque schema-validated output unit; its observable
content here is the field map that passed validation). -/
abbrev FieldMap := List (String × String)

/-- Modelled from the spec: `ResourceGenerator` (§4.2): a record kind
plus generation parameters. -/
structure ResourceGenerator where
  resource : String
  params : GeneratorParameters

/-- Modelled from the spec: `ResourceGenerator` construction. An unknown
record kind is a lookup failure against the schema collaborator, raised
at construction (the snapshot's test `test_generator_init` pins
`KeyError` on `ResourceGenerator("jsdkasdh", 10)` with no `generate()`
call). -/
def mkResourceGenerator (schema : Schema) (resource : String)
    (params : GeneratorParameters) : Except GenError ResourceGenerator :=
  if resource ∈ schema.kinds then .ok ⟨resource, params⟩
  else .error (.lookupError resource)

/-- Error-propagating map over a list: the whole batch fails on the
first failing element and no partial output is produced. -/
def mapME (f : α → Except GenError β) : List α → Except GenError (List β)
  | [] => .ok []
  | a :: as =>
      match f a with
      | .error e => .error e
      | .ok b =>
          match mapME f as with
          | .error e => .error e
          | .ok bs => .ok (b :: bs)

/-- One override's contribution to record `i`: element `i` of a
sequence-valued override (insufficient length is a generation error), a
scalar value unchanged (spec §4.2 steps 1–2). -/
def ovEntry (i : Nat) (fv : FieldValue) : Except GenError (String × String) :=
  match fv.value with
  | .scalar v => .ok (fv.field, v)
  | .seq vs =>
      match vs.get? i with
      | some v => .ok (fv.field, v)
      | none => .error (.generationError "insufficient sequence values")

/-- One producer's contribution to record `i`: invoke `generate()` once
(spec §4.2 step 3); a producer yielding no value is a generation
error. -/
def prodEntry (r : ℚ) (i : Nat) (g : FieldGenerator) :
    Except GenError (String × String) :=
  match g.generate r i with
  | some v => .ok (g.field, v)
  | none => .error (.generationError "producer yielded no value")

/-- The schema-derived defaults for every required field not covered by
the overrides or producers (spec §4.2 step 4). -/
def defaultEntries (schema : Schema) (kind : String) (covered : List String) :
    List (String × String) :=
  ((schema.requiredFields kind).filter (fun f => f ∉ covered)).map
    (fun f => (f, schema.defaultFor kind f))

/-- Modelled from the spec: assembly of record `i` (§4.2 algorithm):
overrides, then producer outputs, then schema defaults for uncovered
required fields; the assembled map is submitted to the external
validator and a failure aborts the record (and with it the batch). -/
def buildRecord (schema : Schema) (kind : String) (p : GeneratorParameters)
    (rdraw : Nat → ℚ) (i : Nat) : Except GenError FieldMap :=
  match mapME (ovEntry i) p.fieldValues with
  | .error e => .error e
  | .ok ovs =>
      match mapME (prodEntry (rdraw i) i) p.fieldGenerators with
      | .error e => .error e
      | .ok prods =>
          let m : FieldMap :=
            ovs ++ prods ++
              defaultEntries schema kind (ovs.map Prod.fst ++ prods.map Prod.fst)
          if schema.validate kind m then .ok m
          else .error (.generationError "schema validation failed")

/-- Whether every sequence-valued override holds at least `count`
elements (the fail-fast precondition of spec §4.2 step 1). -/
def seqLongEnough (count : Nat) (fvs : List FieldValue) : Bool :=
  fvs.all fun fv =>
    match fv.value with
    | .scalar _ => true
    | .seq vs => count ≤ vs.length

/-- Modelled from the spec: `ResourceGenerator.generate()` (§4.2):
exactly `params.count` records or failure with no partial output. An
insufficient sequence-valued override fails the whole batch before any
record is emitted; otherwise records are assembled in index order and a
validation failure aborts the batch. `rdraw i` is the random draw used
by choice-mode producers for record `i`. -/
def ResourceGenerator.generate (schema : Schema) (rg : ResourceGenerator)
    (rdraw : Nat → ℚ) : Except GenError (List FieldMap) :=
  if seqLongEnough rg.params.count rg.params.fieldValues then
    mapME (buildRecord schema rg.resource rg.params rdraw)
      (List.range rg.params.count)
  else .error (.generationError "insufficient sequence values")

/-- A lightweight pointer to a record (spec §3, `ReferenceHandle`),
usable before or after persistence. -/
structure ReferenceHandle where
  kind : String
  id : String
deriving DecidableEq, Repr

/-- The textual rendering of a reference handle as stored in a reference
field (`kind/id`). -/
def refString (h : ReferenceHandle) : String := h.kind ++ "/" ++ h.id

/-- One bound of a Subject Generator age range: numeric or not (a Python
caller may pass a string, which the engine only rejects at generation
time). -/
inductive AgeBound where
  | num : Int → AgeBound
  | str : String → AgeBound
deriving DecidableEq, Repr

/-- The numeric content of an age bound, when it is numeric. -/
def AgeBound.toNum : AgeBound → Option Int
  | .num n => some n
  | .str _ => none

/-- The observable content of a generated subject record: its
(possibly synthetic) identifier, its sampled age and its linked
organisation reference. -/
structure PatientRecord where
  id : String
  age : Option Int
  organisation : Option ReferenceHandle
deriving DecidableEq, Repr

/-- Modelled from the spec: `PatientGenerator` (Subject Generator,
§4.3): batch size, optional age range, optional organisation reference
attached to every subject, and the synthetic-identifier flag. -/
structure PatientGenerator where
  n : Nat
  ageRange : Option (AgeBound × AgeBound)
  organisation : Option ReferenceHandle
  generateIds : Bool

/-- Modelled from the spec: `PatientGenerator` construction performs no
validation of the age range (fail-late, §4.3/§9): it always succeeds. -/
def mkPatientGenerator (n : Nat) (ageRange : Option (AgeBound × AgeBound))
    (organisation : Option ReferenceHandle) (generateIds : Bool) :
    Except GenError PatientGenerator :=
  .ok ⟨n, ageRange, organisation, generateIds⟩

/-- The synthetic identifier of subject `i` when identifier generation
is on, empty otherwise. -/
def patientId (g : PatientGenerator) (i : Nat) : String :=
  if g.generateIds then "patient-" ++ toString i else ""

/-- An age sampled uniformly inside `[mn, mx]` from the raw draw `r`. -/
def patientAge (mn mx : Int) (r : Nat) : Int :=
  mn + ((r % (mx - mn + 1).toNat : Nat) : Int)

/-- Modelled from the spec: `PatientGenerator.generate()` (§4.3): one
subject per index; a non-numeric age-range bound is rejected here, at
generation time, with a type error; numeric bounds constrain every
sampled age. `rand i` is the raw draw for subject `i`. -/
def PatientGenerator.generate (g : PatientGenerator) (rand : Nat → Nat) :
    Except GenError (List PatientRecord) :=
  match g.ageRange with
  | none =>
      .ok ((List.range g.n).map fun i => ⟨patientId g i, none, g.organisation⟩)
  | some (lo, hi) =>
      match lo.toNum, hi.toNum with
      | some mn, some mx =>
          .ok ((List.range g.n).map fun i =>
            ⟨patientId g i, some (patientAge mn mx (rand i)), g.organisation⟩)
      | _, _ => .error (.generationError "age_range bounds must be numeric")

/-- The reference handle pointing to a generated subject record. -/
def patientRef (r : PatientRecord) : ReferenceHandle := ⟨"Patient", r.id⟩

/-- The result of `PatientGenerator.generate(with_references)`: the
records alone, or the records paired with their reference handles. -/
inductive PGResult where
  | plain : List PatientRecord → PGResult
  | withRefs : List PatientRecord → List ReferenceHandle → PGResult
deriving DecidableEq, Repr

/-- Modelled from the spec: the `with_references` flag of
`PatientGenerator.generate` (§4.3): when true, the records are returned
together with one reference handle per record, `reference_handles[i]`
pointing to `records[i]`; when false, the records alone. -/
def PatientGenerator.generateFlag (g : PatientGenerator)
    (withReferences : Bool) (rand : Nat → Nat) : Except GenError PGResult :=
  match g.generate rand with
  | .error e => .error e
  | .ok rs =>
      if withReferences then .ok (.withRefs rs (rs.map patientRef))
      else .ok (.plain rs)

/-- Replace any configured source for field `f` with the forced scalar
value `v`, on a single-record parameter bundle: used by the Time-Series
Generator to stamp the time field and by the Dataset Generator to bind
the reference field. -/
def forceField (p : GeneratorParameters) (f v : String) : GeneratorParameters :=
  ⟨1, ⟨f, .scalar v⟩ :: p.fieldValues.filter (fun fv => fv.field ≠ f),
   p.fieldGenerators.filter (fun g => g.field ≠ f)⟩

/-- Modelled from the spec: `TimeSeriesGenerator` (§4.5): a wrapped
Resource Generator, the designated time field, and a time axis given by
`start` plus either a fixed `n` or an inclusive `endTime`, stepping by
`freq`. Timestamps are modelled as day numbers, `freq` as a positive
step in days. -/
structure TimeSeriesGenerator where
  resourceGenerator : ResourceGenerator
  timeField : String
  start : Nat
  freq : Nat
  endTime : Option Nat
  n : Option Nat

/-- Modelled from the spec: the finite ordered timestamp axis (§4.5):
with `n` given, exactly `n` timestamps from `start` stepping by `freq`;
with `endTime` given instead, timestamps from `start` to `endTime`
inclusive stepping by `freq`. -/
def TimeSeriesGenerator.timestamps (ts : TimeSeriesGenerator) : List Nat :=
  match ts.n with
  | some m => (List.range m).map fun i => ts.start + i * ts.freq
  | none =>
      match ts.endTime with
      | some e =>
          if ts.start ≤ e then
            (List.range ((e - ts.start) / ts.freq + 1)).map
              fun i => ts.start + i * ts.freq
          else []
      | none => []

/-- Modelled from the spec: `TimeSeriesGenerator.generate()` (§4.5): one
record per timestamp, built via the wrapped generator's single-record
path with the time field forced to that timestamp (overriding any
configured value for that field). `rdraws j` is the random draw used by
choice-mode producers for the `j`-th record. -/
def TimeSeriesGenerator.generate (schema : Schema) (ts : TimeSeriesGenerator)
    (rdraws : Nat → ℚ) : Except GenError (List FieldMap) :=
  mapME
    (fun jt =>
      buildRecord schema ts.resourceGenerator.resource
        (forceField ts.resourceGenerator.params ts.timeField (toString jt.2))
        (fun _ => rdraws jt.1) 0)
    ts.timestamps.enum

/-- A node of the Dataset Generator's dependency forest (spec §3,
`GraphNode`). -/
structure GraphNode where
  name : String
  generator : ResourceGenerator
  dependsOn : String
  likelihood : ℚ
  referenceField : Option String

/-- The upstream reference handles a downstream node includes: each
handle is paired with its own Bernoulli draw and kept exactly when the
draw succeeds, so no handle is consumed twice. -/
def includedHandles (likelihood : ℚ) (upstream : List ReferenceHandle)
    (draws : List ℚ) : List ReferenceHandle :=
  ((upstream.zip draws).filter fun hr => hr.2 < likelihood).map Prod.fst

/-- Modelled from the spec: generation of one downstream node of the
Dataset Generator (§4.4 steps 2–3): for each upstream reference handle
whose Bernoulli trial with success probability `likelihood` succeeds,
generate exactly one record with the node's reference field bound to
that handle, as a single-record invocation per included reference. -/
def generateDependentNode (schema : Schema) (node : GraphNode)
    (upstream : List ReferenceHandle) (draws : List ℚ) (rdraw : Nat → ℚ) :
    Except GenError (List FieldMap) :=
  mapME
    (fun h =>
      buildRecord schema node.generator.resource
        (match node.referenceField with
         | some rf => forceField node.generator.params rf (refString h)
         | none => ⟨1, node.generator.params.fieldValues,
                    node.generator.params.fieldGenerators⟩)
        rdraw 0)
    (includedHandles node.likelihood upstream draws)

/-- A concrete schema collaborator used to witness the theorems: one
kind `Condition` with the single required field `subject` and an
always-accepting validator. -/
def demoSchema : Schema :=
  ⟨["Condition", "Patient", "Observation"], fun _ => ["subject"],
   fun _ _ => "default", fun _ _ => true⟩

/-- Concrete generation parameters used to witness the theorems: two
records with one scalar override. -/
def demoParams : GeneratorParameters :=
  ⟨2, [⟨"code", .scalar "covid"⟩], []⟩

/-- A concrete resource generator for the demo parameters. -/
def demoRG : ResourceGenerator := ⟨"Condition", demoParams⟩

/-- Two overrides targeting the same field, as in the duplicate-field
test of `test_resource_generator`. -/
def demoDupOverrides : List FieldValue :=
  [⟨"subject", .scalar "Patient/1"⟩, ⟨"subject", .scalar "Patient/2"⟩]

/-- A sequence-valued override of length 2, as in the insufficient-values
test of `test_resource_generator`. -/
def demoSeqOverride : FieldValue :=
  ⟨"subject", .seq ["Patient/0", "Patient/1"]⟩

/-- A concrete time-series generator in fixed-count mode: three daily
timestamps from day 0. -/
def demoTSCount : TimeSeriesGenerator :=
  ⟨demoRG, "effectiveDateTime", 0, 1, none, some 3⟩

/-- A concrete time-series generator in date-range mode: daily
timestamps from day 0 to day 4 inclusive. -/
def demoTSRange : TimeSeriesGenerator :=
  ⟨demoRG, "effectiveDateTime", 0, 1, some 4, none⟩

/-- Two upstream subject handles for the dataset-generator theorems. -/
def demoUpstream : List ReferenceHandle :=
  [⟨"Patient", "1"⟩, ⟨"Patient", "2"⟩]

/-- A concrete subject generator with synthetic identifiers. -/
def demoPatientGen : PatientGenerator := ⟨2, none, none, true⟩

/-- The value an override contributes to record `i` (total version, used
to describe the successful assembly). -/
def ovValueAt (i : Nat) (fv : FieldValue) : String :=
  match fv.value with
  | .scalar v => v
  | .seq vs => vs.getD i ""

/-- The field map record `i` assembles to when every step succeeds:
overrides, then producer outputs, then defaults for uncovered required
fields. -/
def assembledRecord (schema : Schema) (kind : String) (p : GeneratorParameters)
    (r : ℚ) (i : Nat) : FieldMap :=
  let ovs := p.fieldValues.map fun fv => (fv.field, ovValueAt i fv)
  let prods := p.fieldGenerators.map fun g => (g.field, (g.generate r i).getD "")
  ovs ++ prods ++
    defaultEntries schema kind (ovs.map Prod.fst ++ prods.map Prod.fst)

theorem mapME_eq_map {α β : Type} {f : α → Except GenError β} {gf : α → β} :
    ∀ {l : List α}, (∀ a ∈ l, f a = .ok (gf a)) → mapME f l = .ok (l.map gf)
  | [], _ => rfl
  | a :: as, h => by
      have ha : f a = .ok (gf a) := h a (List.mem_cons_self a as)
      have has : mapME f as = .ok (as.map gf) :=
        mapME_eq_map fun x hx => h x (List.mem_cons_of_mem a hx)
      simp [mapME, ha, has]

theorem mapME_ok_length {α β : Type} {f : α → Except GenError β} :
    ∀ {l : List α} {bs : List β}, mapME f l = .ok bs → bs.length = l.length := by
  intro l
  induction l with
  | nil => intro bs h; simp [mapME] at h; simp [← h]
  | cons a as ih =>
      intro bs h
      unfold mapME at h
      cases hfa : f a with
      | error e => rw [hfa] at h; exact absurd h (by simp)
      | ok b =>
          rw [hfa] at h
          cases hrest : mapME f as with
          | error e => rw [hrest] at h; exact absurd h (by simp)
          | ok bs' =>
              rw [hrest] at h
              simp at h
              subst h
              simp [ih hrest]

theorem mapME_ok_mem {α β : Type} {f : α → Except GenError β} :
    ∀ {l : List α} {bs : List β}, mapME f l = .ok bs →
      ∀ b ∈ bs, ∃ a ∈ l, f a = .ok b := by
  intro l
  induction l with
  | nil =>
      intro bs h
      simp [mapME] at h
      subst h
      intro b hb
      simp at hb
  | cons a as ih =>
      intro bs h b hb
      unfold mapME at h
      cases hfa : f a with
      | error e => rw [hfa] at h; exact absurd h (by simp)
      | ok b0 =>
          rw [hfa] at h
          cases hrest : mapME f as with
          | error e => rw [hrest] at h; exact absurd h (by simp)
          | ok bs' =>
              rw [hrest] at h
              simp at h
              subst h
              rcases List.mem_cons.mp hb with hb | hb
              · exact ⟨a, List.mem_cons_self a as, by rw [hfa, hb]⟩
              · rcases ih hrest b hb with ⟨a', ha', hfa'⟩
                exact ⟨a', List.mem_cons_of_mem a ha', hfa'⟩


theorem buildRecord_ok_validate {schema : Schema} {kind : String}
    {p : GeneratorParameters} {rdraw : Nat → ℚ} {i : Nat} {m : FieldMap}
    (h : buildRecord schema kind p rdraw i = .ok m) :
    schema.validate kind m = true := by
  unfold buildRecord at h
  cases h₁ : mapME (ovEntry i) p.fieldValues with
  | error e => rw [h₁] at h; exact absurd h (by simp)
  | ok ovs =>
      rw [h₁] at h
      cases h₂ : mapME (prodEntry (rdraw i) i) p.fieldGenerators with
      | error e => rw [h₂] at h; exact absurd h (by simp)
      | ok prods =>
          rw [h₂] at h
          dsimp only at h
          split at h
          · next hv =>
              simp at h
              rw [← h]
              simpa [List.append_assoc] using hv
          · exact absurd h (by simp)

theorem buildRecord_ok_of (schema : Schema) (kind : String)
    (p : GeneratorParameters) (rdraw : Nat → ℚ) (i : Nat)
    (hseq : ∀ fv ∈ p.fieldValues, ∀ vs, fv.value = .seq vs → i < vs.length)
    (hprod : ∀ g ∈ p.fieldGenerators, (FieldGenerator.generate g (rdraw i) i).isSome)
    (hval : schema.validate kind (assembledRecord schema kind p (rdraw i) i) = true) :
    buildRecord schema kind p rdraw i =
      .ok (assembledRecord schema kind p (rdraw i) i) := by
  have hov : mapME (ovEntry i) p.fieldValues =
      .ok (p.fieldValues.map fun fv => (fv.field, ovValueAt i fv)) := by
    apply mapME_eq_map
    intro fv hfv
    cases hv : fv.value with
    | scalar v => simp [ovEntry, hv, ovValueAt]
    | seq vs =>
        have hi : i < vs.length := hseq fv hfv vs hv
        have hget : vs[i]? = some vs[i] := List.getElem?_eq_getElem hi
        simp [ovEntry, hv, ovValueAt, List.getD, hget]
  have hpr : mapME (prodEntry (rdraw i) i) p.fieldGenerators =
      .ok (p.fieldGenerators.map fun g =>
        (g.field, (FieldGenerator.generate g (rdraw i) i).getD "")) := by
    apply mapME_eq_map
    intro g hg
    have := hprod g hg
    cases hgen : FieldGenerator.generate g (rdraw i) i with
    | none => rw [hgen] at this; simp at this
    | some v => simp [prodEntry, hgen]
  unfold buildRecord
  rw [hov, hpr]
  simp only [assembledRecord, List.map_map, Function.comp, List.append_assoc]
    at hval ⊢
  simp [hval]

/-- C1: every call of `ResourceGenerator.generate` either fails, in
which case it yields an error and no records at all (no partial output),
or returns a batch of exactly `params.count` records, each of which the
schema collaborator validated. -/
theorem resourceGenerator_generate_atomic (schema : Schema)
    (rg : ResourceGenerator) (rdraw : Nat → ℚ) :
    (∃ e, ResourceGenerator.generate schema rg rdraw = .error e) ∨
    (∃ rs, ResourceGenerator.generate schema rg rdraw = .ok rs ∧
      rs.length = rg.params.count ∧
      ∀ m ∈ rs, schema.validate rg.resource m = true) := by
  cases hgen : ResourceGenerator.generate schema rg rdraw with
  | error e => exact Or.inl ⟨e, rfl⟩
  | ok rs =>
      right
      refine ⟨rs, rfl, ?_, ?_⟩
      · unfold ResourceGenerator.generate at hgen
        split at hgen
        · rw [mapME_ok_length hgen]
          exact List.length_range rg.params.count
        · exact absurd hgen (by simp)
      · intro m hm
        unfold ResourceGenerator.generate at hgen
        split at hgen
        · rcases mapME_ok_mem hgen m hm with ⟨i, _, hb⟩
          exact buildRecord_ok_validate hb
        · exact absurd hgen (by simp)

/-- C2: constructing `GenerationParameters` with the same field name
targeted twice — by two distinct overrides, or by an override and a
producer — fails with a configuration error, at construction and not at
generation. -/
theorem mkGeneratorParameters_duplicate_field (count : Nat)
    (fvs : List FieldValue) (fgs : List FieldGenerator)
    (h : (∃ i j : Fin fvs.length, i ≠ j ∧
            (fvs.get i).field = (fvs.get j).field) ∨
         (∃ fv ∈ fvs, ∃ g ∈ fgs, fv.field = g.field)) :
    mkGeneratorParameters count fvs fgs =
      .error (.configError "duplicate field targeting") := by
  unfold mkGeneratorParameters
  rw [if_neg]
  intro hnd
  unfold targetedFields at hnd
  rcases List.nodup_append.mp hnd with ⟨h₁, _, h₃⟩
  rcases h with ⟨i, j, hij, hfield⟩ | ⟨fv, hfv, g, hg, hfield⟩
  · have hi : (i : Nat) < (fvs.map FieldValue.field).length := by
      simpa using i.isLt
    have hj : (j : Nat) < (fvs.map FieldValue.field).length := by
      simpa using j.isLt
    have hmap : (fvs.map FieldValue.field).get ⟨i, hi⟩ =
        (fvs.map FieldValue.field).get ⟨j, hj⟩ := by
      simp [List.get_map]
      exact hfield
    have := (List.Nodup.get_inj_iff h₁).mp hmap
    apply hij
    apply Fin.ext
    simpa using congrArg Fin.val this
  · exact h₃ (List.mem_map_of_mem FieldValue.field hfv)
      (hfield ▸ List.mem_map_of_mem FieldGenerator.field hg)

/-- Witness for C2: two overrides both targeting `subject` make
`mkGeneratorParameters` fail with the duplicate-targeting configuration
error. -/
theorem mkGeneratorParameters_duplicate_field_witness :
    (demoDupOverrides.get ⟨0, by decide⟩).field =
        (demoDupOverrides.get ⟨1, by decide⟩).field ∧
      mkGeneratorParameters 100 demoDupOverrides [] =
        .error (.configError "duplicate field targeting") :=
  ⟨rfl, mkGeneratorParameters_duplicate_field 100 demoDupOverrides []
    (Or.inl ⟨⟨0, by decide⟩, ⟨1, by decide⟩, by decide, rfl⟩)⟩

/-- C5: constructing a Value Producer fails with a configuration error
exactly when both modes' fields are set, or the probabilities list's
length differs from the choices list's length, or the probabilities do
not sum to 1 within the tolerance `ε`, or neither mode is set; any
construction avoiding all four cases succeeds. -/
theorem mkFieldGenerator_config_iff (ε : ℚ) (a : FGArgs) :
    (∃ msg, mkFieldGenerator ε a = .error (.configError msg)) ↔
      (a.choices.isSome ∧ a.generatorFunction.isSome) ∨
      (∃ cs ps, a.choices = some cs ∧ a.choiceProbabilities = some ps ∧
        ps.length ≠ cs.length) ∨
      (∃ cs ps, a.choices = some cs ∧ a.choiceProbabilities = some ps ∧
        ¬ |ps.sum - 1| ≤ ε) ∨
      (a.choices.isNone ∧ a.generatorFunction.isNone) := by
  obtain ⟨f, cho, pro, gfn⟩ := a
  cases cho with
  | none =>
      cases gfn with
      | none => simp [mkFieldGenerator]
      | some gf => simp [mkFieldGenerator]
  | some cs =>
      cases gfn with
      | some gf => simp [mkFieldGenerator]
      | none =>
          cases pro with
          | none => simp [mkFieldGenerator]
          | some ps =>
              by_cases hlen : ps.length = cs.length
              · by_cases hsum : |ps.sum - 1| ≤ ε
                · simp [mkFieldGenerator, hlen, hsum]
                · simp [mkFieldGenerator, hlen, hsum]
                  exact not_le.mp hsum
              · simp [mkFieldGenerator, hlen]

theorem pickWeighted_mem (r : ℚ) :
    ∀ (cs : List String) (ps : List ℚ), 0 ≤ r → r < ps.sum →
      ps.length ≤ cs.length → ∃ v, pickWeighted r cs ps = some v ∧ v ∈ cs := by
  intro cs
  induction cs generalizing r with
  | nil =>
      intro ps h0 hr hlen
      have : ps = [] := List.length_eq_zero.mp (Nat.le_zero.mp (by simpa using hlen))
      subst this
      simp at hr
      exact absurd h0 (not_le.mpr hr)
  | cons c cs ih =>
      intro ps h0 hr hlen
      cases ps with
      | nil =>
          simp at hr
          exact absurd h0 (not_le.mpr hr)
      | cons p ps =>
          by_cases hlt : r < p
          · exact ⟨c, by simp [pickWeighted, hlt], List.mem_cons_self c cs⟩
          · have h0' : 0 ≤ r - p := by
              have := not_lt.mp hlt
              linarith
            have hr' : r - p < ps.sum := by
              simp [List.sum_cons] at hr
              linarith
            have hlen' : ps.length ≤ cs.length := by simpa using hlen
            rcases ih (r - p) ps h0' hr' hlen' with ⟨v, hv, hmem⟩
            exact ⟨v, by simp [pickWeighted, hlt, hv],
              List.mem_cons_of_mem c hmem⟩

/-- C6: a ChoiceMode Value Producer over two choices with probabilities
`[1, 0]` returns `choices[0]` on every invocation, for every draw in
`[0,1)`; and in general a ChoiceMode `generate()` — weighted with a
positive total weight, or uniform over non-empty choices — always
returns an element of the choices sequence. -/
theorem fieldGenerator_choice_spec :
    (∀ (fname c₀ c₁ : String) (r : ℚ) (k : Nat), 0 ≤ r → r < 1 →
        FieldGenerator.generate ⟨fname, .choice [c₀, c₁] (some [1, 0])⟩ r k =
          some c₀) ∧
    (∀ (fname : String) (cs : List String) (ps : List ℚ) (r : ℚ) (k : Nat),
        0 ≤ r → r < 1 → 0 < ps.sum → ps.length = cs.length →
        ∃ v, FieldGenerator.generate ⟨fname, .choice cs (some ps)⟩ r k =
            some v ∧ v ∈ cs) ∧
    (∀ (fname : String) (cs : List String) (r : ℚ) (k : Nat), cs ≠ [] →
        ∃ v, FieldGenerator.generate ⟨fname, .choice cs none⟩ r k =
            some v ∧ v ∈ cs) := by
  refine ⟨?_, ?_, ?_⟩
  · intro fname c₀ c₁ r k h0 h1
    simp [FieldGenerator.generate, pickWeighted, h1]
  · intro fname cs ps r k h0 h1 hsum hlen
    have h0' : 0 ≤ r * ps.sum := mul_nonneg h0 (le_of_lt hsum)
    have h1' : r * ps.sum < ps.sum := by
      calc r * ps.sum < 1 * ps.sum := by
            exact mul_lt_mul_of_pos_right h1 hsum
        _ = ps.sum := one_mul _
    rcases pickWeighted_mem (r * ps.sum) cs ps h0' h1' (le_of_eq hlen)
      with ⟨v, hv, hmem⟩
    exact ⟨v, by simp [FieldGenerator.generate, hv], hmem⟩
  · intro fname cs r k hne
    have hpos : 0 < cs.length := List.length_pos.mpr hne
    have hlt : k % cs.length < cs.length := Nat.mod_lt k hpos
    refine ⟨cs.get ⟨k % cs.length, hlt⟩, ?_, List.get_mem cs _ _⟩
    simp [FieldGenerator.generate, List.get?_eq_get hlt]

/-- Witness for C6: over the two birthdates of `test_field_generator`
with probabilities `[1, 0]`, the draw `1/2` returns the first choice. -/
theorem fieldGenerator_choice_spec_witness :
    (0 : ℚ) ≤ 1/2 ∧ (1/2 : ℚ) < 1 ∧
      FieldGenerator.generate
        ⟨"birthdate", .choice ["2018-01-01", "2018-01-02"] (some [1, 0])⟩
        (1/2) 0 = some "2018-01-01" :=
  ⟨by norm_num, by norm_num,
    fieldGenerator_choice_spec.1 "birthdate" "2018-01-01" "2018-01-02"
      (1/2) 0 (by norm_num) (by norm_num)⟩

/-- C10: constructing a `ResourceGenerator` with a record kind unknown
to the schema collaborator fails at construction with a lookup error,
before any `generate()` call; a known kind constructs successfully. -/
theorem mkResourceGenerator_unknown_kind (schema : Schema) (kind : String)
    (params : GeneratorParameters) :
    (kind ∉ schema.kinds →
      mkResourceGenerator schema kind params = .error (.lookupError kind)) ∧
    (kind ∈ schema.kinds →
      mkResourceGenerator schema kind params = .ok ⟨kind, params⟩) := by
  constructor
  · intro h
    simp [mkResourceGenerator, h]
  · intro h
    simp [mkResourceGenerator, h]

/-- Witness for C10: the unknown kind of `test_generator_init` fails at
construction with a lookup error against the demo schema. -/
theorem mkResourceGenerator_unknown_kind_witness :
    "jsdkasdh" ∉ demoSchema.kinds ∧
      mkResourceGenerator demoSchema "jsdkasdh" demoParams =
        .error (.lookupError "jsdkasdh") :=
  ⟨by decide,
    (mkResourceGenerator_unknown_kind demoSchema "jsdkasdh" demoParams).1
      (by decide)⟩

/-- C3: a batch with a sequence-valued override shorter than the
requested count fails with a generation error before any record is
emitted (the whole batch fails, whatever the validator would say);
with every sequence at least `count` long (and producers and validation
succeeding) the batch succeeds, and record `i` consumes element `i` of
each sequence in order, no element being reused. -/
theorem resourceGenerator_seq_override_spec (schema : Schema) (kind : String)
    (count : Nat) (fvs : List FieldValue) (fgs : List FieldGenerator)
    (rdraw : Nat → ℚ) :
    (∀ fv ∈ fvs, ∀ vs, fv.value = .seq vs → vs.length < count →
      ResourceGenerator.generate schema ⟨kind, count, fvs, fgs⟩ rdraw =
        .error (.generationError "insufficient sequence values")) ∧
    ((∀ fv ∈ fvs, ∀ vs, fv.value = .seq vs → count ≤ vs.length) →
     (∀ g ∈ fgs, ∀ (r : ℚ) (k : Nat),
        (FieldGenerator.generate g r k).isSome) →
     (∀ m, schema.validate kind m = true) →
      ResourceGenerator.generate schema ⟨kind, count, fvs, fgs⟩ rdraw =
        .ok ((List.range count).map fun i =>
          assembledRecord schema kind ⟨count, fvs, fgs⟩ (rdraw i) i) ∧
      ∀ fv ∈ fvs, ∀ vs, fv.value = .seq vs → ∀ i, i < count →
        (fv.field, vs.getD i "") ∈
          assembledRecord schema kind ⟨count, fvs, fgs⟩ (rdraw i) i) := by
  constructor
  · intro fv hfv vs hv hlen
    unfold ResourceGenerator.generate
    rw [if_neg]
    intro hall
    have := List.all_eq_true.mp hall fv hfv
    rw [hv] at this
    simp at this
    omega
  · intro hseq hprod hval
    constructor
    · unfold ResourceGenerator.generate
      rw [if_pos]
      · apply mapME_eq_map
        intro i hi
        apply buildRecord_ok_of
        · intro fv hfv vs hv
          have h1 : count ≤ vs.length := hseq fv hfv vs hv
          have h2 : i < count := List.mem_range.mp hi
          omega
        · intro g hg
          exact hprod g hg (rdraw i) i
        · exact hval _
      · apply List.all_eq_true.mpr
        intro fv hfv
        cases hv : fv.value with
        | scalar v => simp
        | seq vs => simpa using hseq fv hfv vs hv
    · intro fv hfv vs hv i hi
      have hentry : (fv.field, vs.getD i "") =
          (fun fv => (fv.field, ovValueAt i fv)) fv := by
        simp [ovValueAt, hv]
      rw [hentry]
      dsimp only [assembledRecord]
      exact List.mem_append_left _
        (List.mem_append_left _ (List.mem_map_of_mem _ hfv))

/-- Witness for C3: a sequence override of length 2 fails the whole
batch at count 3 and succeeds at count 2. -/
theorem resourceGenerator_seq_override_spec_witness :
    (ResourceGenerator.generate demoSchema
        ⟨"Condition", 3, [demoSeqOverride], []⟩ (fun _ => 0) =
      .error (.generationError "insufficient sequence values")) ∧
    (ResourceGenerator.generate demoSchema
        ⟨"Condition", 2, [demoSeqOverride], []⟩ (fun _ => 0) =
      .ok ((List.range 2).map fun i =>
        assembledRecord demoSchema "Condition" ⟨2, [demoSeqOverride], []⟩
          ((fun _ => (0 : ℚ)) i) i)) :=
  ⟨(resourceGenerator_seq_override_spec demoSchema "Condition" 3
      [demoSeqOverride] [] (fun _ => 0)).1 demoSeqOverride (by simp)
      ["Patient/0", "Patient/1"] rfl (by decide),
   ((resourceGenerator_seq_override_spec demoSchema "Condition" 2
      [demoSeqOverride] [] (fun _ => 0)).2
      (by
        intro fv hfv vs hv
        simp [demoSeqOverride] at hfv
        subst hfv
        simp [demoSeqOverride] at hv
        simp [← hv])
      (by intro g hg; exact absurd hg (List.not_mem_nil g))
      (fun _ => rfl)).1⟩

theorem patientAge_bounds (mn mx : Int) (hle : mn ≤ mx) (r : Nat) :
    mn ≤ patientAge mn mx r ∧ patientAge mn mx r ≤ mx := by
  unfold patientAge
  have hk : ((mx - mn + 1).toNat : ℤ) = mx - mn + 1 :=
    Int.toNat_of_nonneg (by omega)
  have hkpos : 0 < (mx - mn + 1).toNat := by omega
  have hmod : r % (mx - mn + 1).toNat < (mx - mn + 1).toNat :=
    Nat.mod_lt r hkpos
  have hcast : ((r % (mx - mn + 1).toNat : Nat) : ℤ) <
      ((mx - mn + 1).toNat : ℤ) := Int.ofNat_lt.mpr hmod
  have hnn : (0 : ℤ) ≤ ((r % (mx - mn + 1).toNat : Nat) : ℤ) :=
    Int.ofNat_nonneg _
  omega

/-- C8: Subject Generator construction succeeds for any age-range
bounds, numeric or not; a non-numeric bound only fails at `generate()`
time with a type error; numeric bounds `(mn, mx)` constrain every
generated subject's age into the inclusive interval. -/
theorem patientGenerator_age_range_spec (n : Nat)
    (org : Option ReferenceHandle) (gids : Bool) (rand : Nat → Nat) :
    (∀ lo hi : AgeBound,
      mkPatientGenerator n (some (lo, hi)) org gids =
        .ok ⟨n, some (lo, hi), org, gids⟩) ∧
    (∀ lo hi : AgeBound, lo.toNum = none ∨ hi.toNum = none →
      PatientGenerator.generate ⟨n, some (lo, hi), org, gids⟩ rand =
        .error (.generationError "age_range bounds must be numeric")) ∧
    (∀ mn mx : Int, mn ≤ mx →
      ∃ rs, PatientGenerator.generate
          ⟨n, some (.num mn, .num mx), org, gids⟩ rand = .ok rs ∧
        rs.length = n ∧
        ∀ rec ∈ rs, ∃ a, rec.age = some a ∧ mn ≤ a ∧ a ≤ mx) := by
  refine ⟨fun lo hi => rfl, ?_, ?_⟩
  · intro lo hi h
    rcases h with h | h
    · cases lo with
      | num a => simp [AgeBound.toNum] at h
      | str s => cases hi <;> simp [PatientGenerator.generate, AgeBound.toNum]
    · cases hi with
      | num a => simp [AgeBound.toNum] at h
      | str s => cases lo <;> simp [PatientGenerator.generate, AgeBound.toNum]
  · intro mn mx hle
    refine ⟨(List.range n).map fun i =>
        ⟨patientId ⟨n, some (.num mn, .num mx), org, gids⟩ i,
         some (patientAge mn mx (rand i)), org⟩, rfl, by simp, ?_⟩
    intro rec hrec
    rcases List.mem_map.mp hrec with ⟨i, _, hrec⟩
    refine ⟨patientAge mn mx (rand i), ?_, (patientAge_bounds mn mx hle _).1,
      (patientAge_bounds mn mx hle _).2⟩
    rw [← hrec]

/-- Witness for C8: non-numeric bounds construct fine but fail at
generation; the bounds `(18, 60)` of `test_patient_generator` constrain
all ten ages into `[18, 60]`. -/
theorem patientGenerator_age_range_spec_witness :
    (mkPatientGenerator 10 (some (.str "hello", .str "world")) none false =
      .ok ⟨10, some (.str "hello", .str "world"), none, false⟩) ∧
    (PatientGenerator.generate
        ⟨10, some (.str "hello", .str "world"), none, false⟩ (fun _ => 0) =
      .error (.generationError "age_range bounds must be numeric")) ∧
    (∃ rs, PatientGenerator.generate
        ⟨10, some (.num 18, .num 60), none, false⟩ (fun _ => 0) = .ok rs ∧
      rs.length = 10 ∧ ∀ rec ∈ rs, ∃ a, rec.age = some a ∧ 18 ≤ a ∧ a ≤ 60) :=
  ⟨(patientGenerator_age_range_spec 10 none false (fun _ => 0)).1 _ _,
   (patientGenerator_age_range_spec 10 none false (fun _ => 0)).2.1 _ _
     (Or.inl rfl),
   (patientGenerator_age_range_spec 10 none false (fun _ => 0)).2.2 18 60
     (by norm_num)⟩

/-- C9: when `generate` succeeds, calling it with the with-references
flag true yields the records paired with reference handles of equal
length where handle `i` points to record `i` (kind `Patient`, same
identifier); with the flag false it yields the records alone. -/
theorem patientGenerator_references_spec (g : PatientGenerator)
    (rand : Nat → Nat) (rs : List PatientRecord)
    (h : g.generate rand = .ok rs) :
    (PatientGenerator.generateFlag g true rand =
        .ok (.withRefs rs (rs.map patientRef)) ∧
      (rs.map patientRef).length = rs.length ∧
      ∀ i (hi : i < rs.length) (hi' : i < (rs.map patientRef).length),
        (rs.map patientRef).get ⟨i, hi'⟩ =
          ⟨"Patient", (rs.get ⟨i, hi⟩).id⟩) ∧
    PatientGenerator.generateFlag g false rand = .ok (.plain rs) := by
  refine ⟨⟨?_, by simp, ?_⟩, ?_⟩
  · simp [PatientGenerator.generateFlag, h]
  · intro i hi hi'
    simp [List.get_map, patientRef]
  · simp [PatientGenerator.generateFlag, h]

/-- Witness for C9: the demo subject generator with synthetic
identifiers pairs each record with its own handle. -/
theorem patientGenerator_references_spec_witness :
    PatientGenerator.generate demoPatientGen (fun _ => 0) =
        .ok [⟨"patient-0", none, none⟩, ⟨"patient-1", none, none⟩] ∧
      PatientGenerator.generateFlag demoPatientGen true (fun _ => 0) =
        .ok (.withRefs [⟨"patient-0", none, none⟩, ⟨"patient-1", none, none⟩]
          (([⟨"patient-0", none, none⟩, ⟨"patient-1", none, none⟩] :
              List PatientRecord).map patientRef)) :=
  ⟨rfl,
   (patientGenerator_references_spec demoPatientGen (fun _ => 0) _ rfl).1.1⟩

theorem lookup_assembled_force (schema : Schema) (kind : String)
    (p : GeneratorParameters) (f v : String) (r : ℚ) :
    List.lookup f (assembledRecord schema kind (forceField p f v) r 0) =
      some v := by
  dsimp only [assembledRecord, forceField]
  simp [ovValueAt, List.lookup]

theorem buildRecord_force_ok (schema : Schema) (kind : String)
    (p : GeneratorParameters) (f v : String) (rdraw : Nat → ℚ)
    (hseq : ∀ fv ∈ p.fieldValues, ∀ vs, fv.value = .seq vs → 0 < vs.length)
    (hprod : ∀ g ∈ p.fieldGenerators, ∀ (r : ℚ) (k : Nat),
      (FieldGenerator.generate g r k).isSome)
    (hval : ∀ m, schema.validate kind m = true) :
    buildRecord schema kind (forceField p f v) rdraw 0 =
      .ok (assembledRecord schema kind (forceField p f v) (rdraw 0) 0) := by
  apply buildRecord_ok_of
  · intro fv hfv vs hv
    dsimp only [forceField] at hfv
    rcases List.mem_cons.mp hfv with h | h
    · subst h
      exact absurd hv (by simp)
    · exact hseq fv (List.mem_of_mem_filter h) vs hv
  · intro g hg
    dsimp only [forceField] at hg
    exact hprod g (List.mem_of_mem_filter hg) _ _
  · exact hval _

theorem timeSeries_generate_ok (schema : Schema) (ts : TimeSeriesGenerator)
    (rdraws : Nat → ℚ)
    (hseq : ∀ fv ∈ ts.resourceGenerator.params.fieldValues, ∀ vs,
      fv.value = .seq vs → 0 < vs.length)
    (hprod : ∀ g ∈ ts.resourceGenerator.params.fieldGenerators,
      ∀ (r : ℚ) (k : Nat), (FieldGenerator.generate g r k).isSome)
    (hval : ∀ m, schema.validate ts.resourceGenerator.resource m = true) :
    TimeSeriesGenerator.generate schema ts rdraws =
      .ok (ts.timestamps.enum.map fun jt =>
        assembledRecord schema ts.resourceGenerator.resource
          (forceField ts.resourceGenerator.params ts.timeField
            (toString jt.2))
          (rdraws jt.1) 0) := by
  unfold TimeSeriesGenerator.generate
  apply mapME_eq_map
  intro jt _
  exact buildRecord_force_ok schema ts.resourceGenerator.resource
    ts.resourceGenerator.params ts.timeField (toString jt.2)
    (fun _ => rdraws jt.1) hseq hprod hval

theorem timeSeries_lookup (schema : Schema) (ts : TimeSeriesGenerator)
    (rdraws : Nat → ℚ)
    (hseq : ∀ fv ∈ ts.resourceGenerator.params.fieldValues, ∀ vs,
      fv.value = .seq vs → 0 < vs.length)
    (hprod : ∀ g ∈ ts.resourceGenerator.params.fieldGenerators,
      ∀ (r : ℚ) (k : Nat), (FieldGenerator.generate g r k).isSome)
    (hval : ∀ m, schema.validate ts.resourceGenerator.resource m = true) :
    ∃ rs, TimeSeriesGenerator.generate schema ts rdraws = .ok rs ∧
      rs.length = ts.timestamps.length ∧
      ∀ i (hi : i < rs.length) (hi' : i < ts.timestamps.length),
        List.lookup ts.timeField (rs.get ⟨i, hi⟩) =
          some (toString (ts.timestamps.get ⟨i, hi'⟩)) := by
  refine ⟨_, timeSeries_generate_ok schema ts rdraws hseq hprod hval, ?_, ?_⟩
  · simp [List.enum_length]
  · intro i hi hi'
    have hlen : i < ts.timestamps.enum.length := by
      simpa [List.enum_length] using hi'
    have hget : (ts.timestamps.enum.map fun jt =>
        assembledRecord schema ts.resourceGenerator.resource
          (forceField ts.resourceGenerator.params ts.timeField
            (toString jt.2))
          (rdraws jt.1) 0).get ⟨i, hi⟩ =
        assembledRecord schema ts.resourceGenerator.resource
          (forceField ts.resourceGenerator.params ts.timeField
            (toString (ts.timestamps.get ⟨i, hi'⟩)))
          (rdraws i) 0 := by
      rw [List.get_map]
      have henum : ts.timestamps.enum.get ⟨i, hlen⟩ =
          (i, ts.timestamps.get ⟨i, hi'⟩) := by
        simp [List.getElem_enum]
      rw [henum]
    rw [hget]
    exact lookup_assembled_force schema ts.resourceGenerator.resource
      ts.resourceGenerator.params ts.timeField _ _

/-- C7: the Time-Series Generator produces one record per timestamp on
a finite ordered axis: with a fixed count `m`, exactly `m` records with
timestamps `start, start+freq, …`; with an inclusive end `e` instead,
timestamps from `start` to `e` inclusive stepping by `freq`; in every
record the designated time field holds that timestamp — also when the
wrapped parameters configure that field, since the forced override
replaces any configured source for it. -/
theorem timeSeriesGenerator_spec (schema : Schema) (rg : ResourceGenerator)
    (tf : String) (rdraws : Nat → ℚ)
    (hseq : ∀ fv ∈ rg.params.fieldValues, ∀ vs,
      fv.value = .seq vs → 0 < vs.length)
    (hprod : ∀ g ∈ rg.params.fieldGenerators, ∀ (r : ℚ) (k : Nat),
      (FieldGenerator.generate g r k).isSome)
    (hval : ∀ m, schema.validate rg.resource m = true) :
    (∀ start freq m : Nat,
      ∃ rs, TimeSeriesGenerator.generate schema
          ⟨rg, tf, start, freq, none, some m⟩ rdraws = .ok rs ∧
        rs.length = m ∧
        ∀ i (hi : i < rs.length),
          List.lookup tf (rs.get ⟨i, hi⟩) =
            some (toString (start + i * freq))) ∧
    (∀ start freq e : Nat, start ≤ e →
      ∃ rs, TimeSeriesGenerator.generate schema
          ⟨rg, tf, start, freq, some e, none⟩ rdraws = .ok rs ∧
        rs.length = (e - start) / freq + 1 ∧
        ∀ i (hi : i < rs.length),
          List.lookup tf (rs.get ⟨i, hi⟩) =
              some (toString (start + i * freq)) ∧
            start + i * freq ≤ e) := by
  constructor
  · intro start freq m
    obtain ⟨rs, hgen, hlen, hlook⟩ := timeSeries_lookup schema
      ⟨rg, tf, start, freq, none, some m⟩ rdraws hseq hprod hval
    have hts : TimeSeriesGenerator.timestamps
        ⟨rg, tf, start, freq, none, some m⟩ =
        (List.range m).map fun i => start + i * freq := rfl
    refine ⟨rs, hgen, ?_, ?_⟩
    · rw [hlen, hts]
      simp
    · intro i hi
      have hi' : i < (TimeSeriesGenerator.timestamps
          ⟨rg, tf, start, freq, none, some m⟩).length := by
        rw [← hlen]; exact hi
      have := hlook i hi hi'
      rw [this]
      have hts' : (TimeSeriesGenerator.timestamps
          ⟨rg, tf, start, freq, none, some m⟩).get ⟨i, hi'⟩ =
          start + i * freq := by
        simp [List.get_eq_getElem, hts, List.getElem_map]
      rw [hts']
  · intro start freq e hse
    obtain ⟨rs, hgen, hlen, hlook⟩ := timeSeries_lookup schema
      ⟨rg, tf, start, freq, some e, none⟩ rdraws hseq hprod hval
    have hts : TimeSeriesGenerator.timestamps
        ⟨rg, tf, start, freq, some e, none⟩ =
        (List.range ((e - start) / freq + 1)).map
          fun i => start + i * freq := by
      simp [TimeSeriesGenerator.timestamps, hse]
    refine ⟨rs, hgen, ?_, ?_⟩
    · rw [hlen, hts]
      simp
    · intro i hi
      have hi' : i < (TimeSeriesGenerator.timestamps
          ⟨rg, tf, start, freq, some e, none⟩).length := by
        rw [← hlen]; exact hi
      have hibound : i < (e - start) / freq + 1 := by
        have := hi'
        rw [hts] at this
        simpa using this
      constructor
      · have := hlook i hi hi'
        rw [this]
        have hts' : (TimeSeriesGenerator.timestamps
            ⟨rg, tf, start, freq, some e, none⟩).get ⟨i, hi'⟩ =
            start + i * freq := by
          simp [List.get_eq_getElem, hts, List.getElem_map]
        rw [hts']
      · have h1 : i ≤ (e - start) / freq := Nat.lt_succ_iff.mp hibound
        have h2 : i * freq ≤ ((e - start) / freq) * freq :=
          Nat.mul_le_mul_right freq h1
        have h3 : ((e - start) / freq) * freq ≤ e - start :=
          Nat.div_mul_le_self (e - start) freq
        omega

/-- Witness for C7: three daily timestamps from day 0 produce three
records, each stamped with its own timestamp in the time field. -/
theorem timeSeriesGenerator_spec_witness :
    ∃ rs, TimeSeriesGenerator.generate demoSchema demoTSCount (fun _ => 0) =
        .ok rs ∧ rs.length = 3 ∧
      ∀ i (hi : i < rs.length),
        List.lookup "effectiveDateTime" (rs.get ⟨i, hi⟩) =
          some (toString (0 + i * 1)) :=
  (timeSeriesGenerator_spec demoSchema demoRG "effectiveDateTime"
    (fun _ => 0)
    (by
      intro fv hfv vs hv
      simp [demoRG, demoParams] at hfv
      subst hfv
      simp at hv)
    (by intro g hg; exact absurd hg (List.not_mem_nil g))
    (fun _ => rfl)).1 0 1 3

theorem map_fst_zip_sublist {α β : Type} :
    ∀ (u : List α) (d : List β), ((u.zip d).map Prod.fst).Sublist u
  | [], _ => by simp
  | _ :: _, [] => by simp
  | a :: u, b :: d => by
      simpa using List.Sublist.cons₂ a (map_fst_zip_sublist u d)

theorem includedHandles_sublist (p : ℚ) (u : List ReferenceHandle)
    (d : List ℚ) : (includedHandles p u d).Sublist u := by
  unfold includedHandles
  exact (((u.zip d).filter_sublist).map Prod.fst).trans
    (map_fst_zip_sublist u d)

/-- C4: a downstream node of the Dataset Generator consumes each
upstream reference handle at most once (the included handles form a
sublist of the upstream handles), so its record count never exceeds the
parent batch size; with likelihood 1 the dependent batch has exactly one
record per upstream handle, each with the reference field bound to that
handle's rendering — bindings pairwise distinct whenever the upstream
handles are — and with likelihood 0 the dependent batch is empty. -/
theorem datasetGenerator_dependent_node_spec (schema : Schema)
    (rg : ResourceGenerator) (nodeName dep rf : String)
    (upstream : List ReferenceHandle) (draws : List ℚ) (rdraw : Nat → ℚ) :
    (∀ (p : ℚ) (rfOpt : Option String) (rs : List FieldMap),
      generateDependentNode schema ⟨nodeName, rg, dep, p, rfOpt⟩ upstream
          draws rdraw = .ok rs →
        rs.length ≤ upstream.length) ∧
    (∀ p : ℚ, (includedHandles p upstream draws).Sublist upstream) ∧
    ((∀ r ∈ draws, 0 ≤ r ∧ r < 1) → draws.length = upstream.length →
     (∀ fv ∈ rg.params.fieldValues, ∀ vs,
        fv.value = .seq vs → 0 < vs.length) →
     (∀ g ∈ rg.params.fieldGenerators, ∀ (r : ℚ) (k : Nat),
        (FieldGenerator.generate g r k).isSome) →
     (∀ m, schema.validate rg.resource m = true) →
      ∃ rs, generateDependentNode schema ⟨nodeName, rg, dep, 1, some rf⟩
          upstream draws rdraw = .ok rs ∧
        rs.length = upstream.length ∧
        rs.map (List.lookup rf) =
          upstream.map (fun h => some (refString h)) ∧
        ((upstream.map refString).Nodup →
          (rs.map (List.lookup rf)).Nodup)) ∧
    ((∀ r ∈ draws, 0 ≤ r) →
      generateDependentNode schema ⟨nodeName, rg, dep, 0, some rf⟩ upstream
        draws rdraw = .ok []) := by
  refine ⟨?_, fun p => includedHandles_sublist p upstream draws, ?_, ?_⟩
  · intro p rfOpt rs h
    unfold generateDependentNode at h
    have hlen := mapME_ok_length h
    rw [hlen]
    exact (includedHandles_sublist p upstream draws).length_le
  · intro hdr hdl hseq hprod hval
    have hall : includedHandles 1 upstream draws = upstream := by
      unfold includedHandles
      have hfil : ((upstream.zip draws).filter fun hr => hr.2 < 1) =
          upstream.zip draws := by
        apply List.filter_eq_self.mpr
        intro x hx
        have hx2 : x.2 ∈ draws := (List.of_mem_zip hx).2
        simpa using (hdr x.2 hx2).2
      rw [hfil]
      exact List.map_fst_zip upstream draws (le_of_eq hdl.symm)
    have hok : generateDependentNode schema ⟨nodeName, rg, dep, 1, some rf⟩
        upstream draws rdraw =
        .ok (upstream.map fun h =>
          assembledRecord schema rg.resource
            (forceField rg.params rf (refString h)) (rdraw 0) 0) := by
      unfold generateDependentNode
      rw [hall]
      apply mapME_eq_map
      intro h _
      exact buildRecord_force_ok schema rg.resource rg.params rf
        (refString h) rdraw hseq hprod hval
    have hmaplook : (upstream.map fun h =>
          assembledRecord schema rg.resource
            (forceField rg.params rf (refString h)) (rdraw 0) 0).map
        (List.lookup rf) = upstream.map (fun h => some (refString h)) := by
      rw [List.map_map]
      apply List.map_congr_left
      intro h _
      exact lookup_assembled_force schema rg.resource rg.params rf
        (refString h) (rdraw 0)
    refine ⟨_, hok, by simp, hmaplook, ?_⟩
    intro hnd
    rw [hmaplook]
    have : upstream.map (fun h => some (refString h)) =
        (upstream.map refString).map some := by
      rw [List.map_map]
      rfl
    rw [this]
    exact hnd.map (Option.some_injective String)
  · intro hdr
    have hnone : includedHandles 0 upstream draws = [] := by
      unfold includedHandles
      have hfil : ((upstream.zip draws).filter fun hr => hr.2 < 0) = [] := by
        apply List.filter_eq_nil_iff.mpr
        intro x hx
        have hx2 : x.2 ∈ draws := (List.of_mem_zip hx).2
        simpa using not_lt.mpr (hdr x.2 hx2)
      rw [hfil]
      rfl
    unfold generateDependentNode
    rw [hnone]
    rfl

/-- Witness for C4: two upstream subject handles with draws `0` and
`1/2` under likelihood 1 give a dependent batch binding each handle
once, and the inclusion list is a sublist of the upstream handles. -/
theorem datasetGenerator_dependent_node_spec_witness :
    (includedHandles 1 demoUpstream [0, 1/2]).Sublist demoUpstream ∧
      ∃ rs, generateDependentNode demoSchema
          ⟨"covid", demoRG, "base", 1, some "subject"⟩ demoUpstream
          [0, 1/2] (fun _ => 0) = .ok rs ∧
        rs.length = demoUpstream.length ∧
        rs.map (List.lookup "subject") =
          demoUpstream.map (fun h => some (refString h)) ∧
        ((demoUpstream.map refString).Nodup →
          (rs.map (List.lookup "subject")).Nodup) :=
  ⟨(datasetGenerator_dependent_node_spec demoSchema demoRG "covid" "base"
      "subject" demoUpstream [0, 1/2] (fun _ => 0)).2.1 1,
   (datasetGenerator_dependent_node_spec demoSchema demoRG "covid" "base"
      "subject" demoUpstream [0, 1/2] (fun _ => 0)).2.2.1
     (by
       intro r hr
       simp at hr
       rcases hr with h | h <;> subst h <;> norm_num)
     (by decide)
     (by
       intro fv hfv vs hv
       simp [demoRG, demoParams] at hfv
       subst hfv
       simp at hv)
     (by intro g hg; exact absurd hg (List.not_mem_nil g))
     (fun _ => rfl)⟩

end FhirKindling
